import Mathlib

/-!
Shallow embedding of `src/tools/elfdeps.c` (the rpm ELF dependency
extractor) and proofs about its dependency-emission policy.

The program walks an ELF object's program headers and sections and emits
two ordered lists of dependency strings (provides / requires).  The
structural ELF reader (libelf's typed accessors) is external to the
repository, so the embedding models its outputs: records of the
version-definition and version-requirement sections carry their resolved
name strings, and chained aux records are modelled as lists walked by a
cursor that only advances where the C code advances its offset.
-/

namespace Elfdeps

/-! ELF constants from elf.h, as referenced by the source. -/

def ELFCLASS64 : Nat := 2
def ELFDATA2LSB : Nat := 1
def ELFDATA2MSB : Nat := 2
def ET_EXEC : Nat := 2
def ET_DYN : Nat := 3
def EM_SPARC : Nat := 2
def EM_386 : Nat := 3
def EM_68K : Nat := 4
def EM_MIPS : Nat := 8
def EM_PARISC : Nat := 15
def EM_SPARC32PLUS : Nat := 18
def EM_PPC : Nat := 20
def EM_PPC64 : Nat := 21
def EM_S390 : Nat := 22
def EM_ARM : Nat := 40
def EM_FAKE_ALPHA : Nat := 41
def EM_SH : Nat := 42
def EM_SPARCV9 : Nat := 43
def EM_IA_64 : Nat := 50
def EM_X86_64 : Nat := 62
def EM_AARCH64 : Nat := 183
def EM_RISCV : Nat := 243
def EM_ALPHA : Nat := 0x9026

/-- The six global configuration flags of elfdeps.c (file-scope ints). -/
structure Config where
  soname_only : Bool
  fake_soname : Bool
  filter_soname : Bool
  require_interp : Bool
  add_arch : Bool
  add_nonarch : Bool
deriving Repr, DecidableEq

/-- The flag values at program start (lines 16-21 of elfdeps.c):
`soname_only = 0, fake_soname = 1, filter_soname = 1, require_interp = 0,
add_arch = 0, add_nonarch = 1`. -/
def defaultConfig : Config :=
  { soname_only := false, fake_soname := true, filter_soname := true,
    require_interp := false, add_arch := false, add_nonarch := true }

/-- rpm's `risspace`: blank and the C whitespace control characters
(tab through carriage return, code points 9..13). -/
def risspace (c : Char) : Bool :=
  c == ' ' || (9 ≤ c.toNat && c.toNat ≤ 13)

/-- Whether one character list is a leading segment of another (structural,
so closed instances reduce inside the kernel). -/
def leadEq : List Char → List Char → Bool
  | _, [] => true
  | [], _ :: _ => false
  | a :: as, b :: bs => a == b && leadEq as bs

/-- rpm's `rstreqn(a, b, n)`: `strncmp(a, b, n) == 0`. -/
def rstreqn (a b : String) (n : Nat) : Bool :=
  a.data.take n == b.data.take n

/-- C `strstr(hay, needle) != NULL` on character lists. -/
def listHasSubstr (needle : List Char) : List Char → Bool
  | [] => leadEq [] needle
  | c :: rest => leadEq (c :: rest) needle || listHasSubstr needle rest

/-- C `strstr(hay, needle) != NULL`: some suffix of `hay` starts with
`needle`. -/
def hasSubstr (hay needle : String) : Bool :=
  listHasSubstr needle.data hay.data

/-- elfdeps.c `skipSoname` (lines 47-77): returns `true` when the candidate
soname is to be dropped.  Empty / all-whitespace sonames are always dropped;
with `filter_soname` set, a soname must contain ".so" and must pass the
`ld*` / `lib` prefix tests (the C code compares only the first 3 characters
of the `"ld64."` and `"ld64-"` literals). -/
def skipSoname (cfg : Config) (soname : String) : Bool :=
  if !(soname.data.any fun c => !risspace c) then
    true
  else if cfg.filter_soname then
    if !hasSubstr soname ".so" then
      true
    else if rstreqn soname "ld." 3 || rstreqn soname "ld-" 3 ||
        rstreqn soname "ld64." 3 || rstreqn soname "ld64-" 3 then
      false
    else if rstreqn soname "lib" 3 then
      false
    else
      true
  else
    false

/-- Per-object scratch state, `struct elfInfo_s` (lines 23-38). -/
structure ElfInfo where
  isDSO : Bool := false
  isExec : Bool := false
  gotDEBUG : Bool := false
  gotHASH : Bool := false
  gotGNUHASH : Bool := false
  soname : Option String := none
  interp : Option String := none
  marker : Option String := none
  archmarker : Option String := none
  requires : List String := []
  provides : List String := []
deriving Repr, DecidableEq

/-- The zero-initialized `elfInfo` produced by `rcalloc` (line 366). -/
def initEi : ElfInfo := {}

/-- elfdeps.c `genRequires` (lines 79-82): requires entries are generated
unless the object carries an interpreter and is not executable. -/
def genRequires (ei : ElfInfo) : Bool :=
  !(ei.interp.isSome && ei.isExec == false)

/-- The ELF header fields the source reads. -/
structure Ehdr where
  eClass : Nat
  eData : Nat
  eMachine : Nat
  eType : Nat
deriving Repr, DecidableEq

/-- elfdeps.c `mkmarker` (lines 84-100): the word-size marker, `"(64bit)"`
for 64-bit objects except the two alpha machine codes, otherwise NULL. -/
def mkmarker (ehdr : Ehdr) : Option String :=
  if ehdr.eClass == ELFCLASS64 then
    if ehdr.eMachine == EM_ALPHA || ehdr.eMachine == EM_FAKE_ALPHA then
      none
    else
      some "(64bit)"
  else
    none

/-- elfdeps.c `mkarchmarker` (lines 102-169): the architecture marker keyed
on machine id, word size and endianness. -/
def mkarchmarker (ehdr : Ehdr) : String :=
  if ehdr.eMachine == EM_386 then "(i386)"
  else if ehdr.eMachine == EM_68K then "(m68k)"
  else if ehdr.eMachine == EM_AARCH64 then
    if ehdr.eData == ELFDATA2LSB then "(aarch64)" else "(aarch64_be)"
  else if ehdr.eMachine == EM_ALPHA || ehdr.eMachine == EM_FAKE_ALPHA then
    "(alpha)"
  else if ehdr.eMachine == EM_ARM then
    if ehdr.eData == ELFDATA2LSB then "(arm)" else "armeb"
  else if ehdr.eMachine == EM_IA_64 then "(ia64)"
  else if ehdr.eMachine == EM_MIPS then
    if ehdr.eClass == ELFCLASS64 && ehdr.eData == ELFDATA2LSB then "(mips64le)"
    else if ehdr.eClass == ELFCLASS64 then "(mips64)"
    else if ehdr.eData == ELFDATA2LSB then "(mipsel)"
    else "(mips)"
  else if ehdr.eMachine == EM_PARISC then
    if ehdr.eClass == ELFCLASS64 then "(hppa64)" else "hppa"
  else if ehdr.eMachine == EM_PPC then
    if ehdr.eData == ELFDATA2LSB then "(ppcle)" else "(ppc)"
  else if ehdr.eMachine == EM_PPC64 then
    if ehdr.eData == ELFDATA2LSB then "(ppc64le)" else "(ppc64)"
  else if ehdr.eMachine == EM_RISCV then
    if ehdr.eClass == ELFCLASS64 then "(riscv64)" else "(riscv32)"
  else if ehdr.eMachine == EM_S390 then
    if ehdr.eClass == ELFCLASS64 then "(s390x)" else "(s390)"
  else if ehdr.eMachine == EM_SH then
    if ehdr.eData == ELFDATA2LSB then "(shl)" else "(sh)"
  else if ehdr.eMachine == EM_SPARC || ehdr.eMachine == EM_SPARC32PLUS ||
      ehdr.eMachine == EM_SPARCV9 then
    if ehdr.eClass == ELFCLASS64 then "(sparc64)" else "(sparc)"
  else if ehdr.eMachine == EM_X86_64 then "(x86_64)"
  else if ehdr.eClass == ELFCLASS64 then "(unknown64)"
  else "(unknown)"

/-- elfdeps.c `addDep` (lines 171-185): drop filtered sonames; otherwise
append the bare name when both version and marker are NULL, and
`name(version)marker` (NULL slots printed as "") when either is present. -/
def addDep (cfg : Config) (deps : List String) (soname : String)
    (ver : Option String) (marker : Option String) : List String :=
  if skipSoname cfg soname then
    deps
  else if ver.isSome || marker.isSome then
    deps ++ [soname ++ "(" ++ ver.getD "" ++ ")" ++ marker.getD ""]
  else
    deps ++ [soname]

/-- The dual-marker emission pattern repeated at every `addDep` site of the
source (e.g. lines 219-222): one pass with the word-size marker under
`add_nonarch`, one with the architecture marker under `add_arch`. -/
def dualAddDep (cfg : Config) (deps : List String) (nm : String)
    (ver : Option String) (marker archmarker : Option String) :
    List String :=
  let deps :=
    if cfg.add_nonarch then addDep cfg deps nm ver marker else deps
  if cfg.add_arch then addDep cfg deps nm ver archmarker else deps

/-- A version-definition record (`GElf_Verdef`) with its aux chain: the
base flag (`vd_flags & VER_FLG_BASE`), the declared aux count `vd_cnt`,
and the chain's resolved version names in chain order (the external
reader resolves `vda_name` through the string table). -/
structure Verdef where
  vd_base : Bool
  vd_cnt : Nat
  auxNames : List String
deriving Repr, DecidableEq

/-- A version-definition section: `sh_info` (the declared record count)
and the top-level record chain in chain order. -/
structure VerdefSec where
  sh_info : Nat
  recs : List Verdef
deriving Repr, DecidableEq

/-- The inner aux loop of `processVerDef` (lines 204-224).  `j` counts down
from `vd_cnt`; `auxIdx` is the cursor into the aux chain (the C `auxoffset`).
The cursor advances (`auxoffset += aux->vda_next`) only in the base branch;
the non-base branches fall to the loop end without advancing it.
Returns the updated running soname and provides list. -/
def verdefAuxLoop (cfg : Config) (marker archmarker : Option String)
    (auxNames : List String) (base : Bool) :
    Nat → Nat → Option String → List String → Option String × List String
  | 0, _, soname, provides => (soname, provides)
  | j + 1, auxIdx, soname, provides =>
    match auxNames.get? auxIdx with
    | none => (soname, provides)
    | some s =>
      if base then
        verdefAuxLoop cfg marker archmarker auxNames base j (auxIdx + 1)
          (some s) provides
      else
        match soname with
        | some sn =>
          if !cfg.soname_only then
            verdefAuxLoop cfg marker archmarker auxNames base j auxIdx
              soname (dualAddDep cfg provides sn (some s) marker archmarker)
          else
            verdefAuxLoop cfg marker archmarker auxNames base j auxIdx
              soname provides
        | none =>
          verdefAuxLoop cfg marker archmarker auxNames base j auxIdx
            soname provides

/-- The outer record loop of `processVerDef` (lines 196-226): `i` counts
down from `sh_info`, and `offset += def->vd_next` always moves the cursor
to the next top-level record. -/
def verdefRecLoop (cfg : Config) (marker archmarker : Option String)
    (recs : List Verdef) :
    Nat → Nat → Option String → List String → List String
  | 0, _, _, provides => provides
  | i + 1, idx, soname, provides =>
    match recs.get? idx with
    | none => provides
    | some r =>
      let res := verdefAuxLoop cfg marker archmarker r.auxNames r.vd_base
        r.vd_cnt 0 soname provides
      verdefRecLoop cfg marker archmarker recs i (idx + 1) res.1 res.2

/-- elfdeps.c `processVerDef` (lines 187-229): walks the record chain with
a local running soname (initially NULL) and appends provides entries. -/
def processVerDef (cfg : Config) (sec : VerdefSec) (ei : ElfInfo) : ElfInfo :=
  { ei with provides :=
      (verdefRecLoop cfg ei.marker ei.archmarker sec.recs sec.sh_info 0 none
        ei.provides) }

/-- A version-requirement record (`GElf_Verneed`): the required file's
resolved name (`vn_file`), its aux count `vn_cnt`, and the resolved
required version names of its aux chain. -/
structure Verneed where
  vn_file : String
  vn_cnt : Nat
  auxNames : List String
deriving Repr, DecidableEq

/-- A version-requirement section: `sh_info` and the record chain. -/
structure VerneedSec where
  sh_info : Nat
  recs : List Verneed
deriving Repr, DecidableEq

/-- The inner aux loop of `processVerNeed` (lines 251-267): the cursor
always advances (`auxoffset += aux->vna_next` sits after the gate), and
each aux emits under `genRequires(ei) && soname && !soname_only`. -/
def verneedAuxLoop (cfg : Config) (ei : ElfInfo) (soname : String)
    (auxNames : List String) : Nat → Nat → List String → List String
  | 0, _, req => req
  | j + 1, auxIdx, req =>
    match auxNames.get? auxIdx with
    | none => req
    | some s =>
      let req :=
        if genRequires ei && !cfg.soname_only then
          dualAddDep cfg req soname (some s) ei.marker ei.archmarker
        else req
      verneedAuxLoop cfg ei soname auxNames j (auxIdx + 1) req

/-- The outer record loop of `processVerNeed` (lines 237-269): each record
resets the running soname to its `vn_file` name, then walks its auxes. -/
def verneedRecLoop (cfg : Config) (ei : ElfInfo) (recs : List Verneed) :
    Nat → Nat → List String → List String
  | 0, _, req => req
  | i + 1, idx, req =>
    match recs.get? idx with
    | none => req
    | some r =>
      let req := verneedAuxLoop cfg ei r.vn_file r.auxNames r.vn_cnt 0 req
      verneedRecLoop cfg ei recs i (idx + 1) req

/-- elfdeps.c `processVerNeed` (lines 231-272). -/
def processVerNeed (cfg : Config) (sec : VerneedSec) (ei : ElfInfo) :
    ElfInfo :=
  { ei with requires :=
      verneedRecLoop cfg ei sec.recs sec.sh_info 0 ei.requires }

/-- A dynamic-table entry after tag dispatch; the string-bearing tags carry
the result of the `elf_strptr` lookup (`none` when it returned NULL). -/
inductive DynEntry where
  | hashTag : DynEntry
  | gnuhashTag : DynEntry
  | debugTag : DynEntry
  | sonameTag : Option String → DynEntry
  | neededTag : Option String → DynEntry
  | otherTag : DynEntry
deriving Repr, DecidableEq, BEq

/-- One iteration of the `processDynamic` entry loop (lines 278-313). -/
def processDynEntry (cfg : Config) (ei : ElfInfo) : DynEntry → ElfInfo
  | .hashTag => { ei with gotHASH := true }
  | .gnuhashTag => { ei with gotGNUHASH := true }
  | .debugTag => { ei with gotDEBUG := true }
  | .sonameTag s =>
    match s with
    | some str => { ei with soname := some str }
    | none => ei
  | .neededTag s =>
    if genRequires ei then
      match s with
      | some str =>
        { ei with requires :=
            (dualAddDep cfg ei.requires str none ei.marker ei.archmarker) }
      | none => ei
    else ei
  | .otherTag => ei

/-- elfdeps.c `processDynamic` (lines 274-315). -/
def processDynamic (cfg : Config) : List DynEntry → ElfInfo → ElfInfo
  | [], ei => ei
  | e :: rest, ei => processDynamic cfg rest (processDynEntry cfg ei e)

/-- One section as dispatched on `sh_type` by `processSections`
(lines 326-338). -/
inductive Scn where
  | verdef : VerdefSec → Scn
  | verneed : VerneedSec → Scn
  | dynamic : List DynEntry → Scn
  | other : Scn
deriving Repr, DecidableEq

/-- The per-section dispatch of `processSections`. -/
def processScn (cfg : Config) (s : Scn) (ei : ElfInfo) : ElfInfo :=
  match s with
  | .verdef v => processVerDef cfg v ei
  | .verneed v => processVerNeed cfg v ei
  | .dynamic d => processDynamic cfg d ei
  | .other => ei

/-- elfdeps.c `processSections` (lines 317-340): visit every section in
file order. -/
def processSections (cfg : Config) : List Scn → ElfInfo → ElfInfo
  | [], ei => ei
  | s :: rest, ei => processSections cfg rest (processScn cfg s ei)

/-- A program header as the source reads it: whether `p_type == PT_INTERP`,
and the bounds-checked string at its file offset (`none` when
`elf_rawfile` failed or `p_offset` is out of bounds). -/
structure Phdr where
  p_interp : Bool
  p_data : Option String
deriving Repr, DecidableEq

/-- elfdeps.c `processProgHeaders` (lines 342-358): store the string of the
first INTERP segment whose bounds check passes and stop there; an INTERP
segment failing the bounds check does not stop the loop. -/
def processProgHeaders (ei : ElfInfo) : List Phdr → ElfInfo
  | [] => ei
  | p :: rest =>
    if p.p_interp then
      match p.p_data with
      | some s => { ei with interp := some s }
      | none => processProgHeaders ei rest
    else
      processProgHeaders ei rest

/-- The interpreter path `processProgHeaders` would store for a program
header list (used to state theorems about the scan's outcome). -/
def findInterp : List Phdr → Option String
  | [] => none
  | p :: rest =>
    if p.p_interp then
      match p.p_data with
      | some s => some s
      | none => findInterp rest
    else
      findInterp rest

/-- The characters after the last '/' of a character list, or `none` when
it has no '/' (C `strrchr(fn, '/')`). -/
def afterLastSlash : List Char → Option (List Char)
  | [] => none
  | c :: rest =>
    match afterLastSlash rest with
    | some s => some s
    | none => if c == '/' then some rest else none

/-- The basename computation of lines 406-407: the substring after the
last '/', or the whole path when it has none. -/
def basename (fn : String) : String :=
  match afterLastSlash fn.data with
  | some s => String.mk s
  | none => fn

/-- What opening one input path yields, as `processFile` distinguishes it:
`openFail` for a failed `open`/`fstat` (lines 368-370), `notElf` when
`elf_begin` gives NULL or a non-ELF kind (lines 373-375), `noEhdr` when
`gelf_getehdr` fails (lines 377-379), and `elfOk` carrying the exec
permission bits of `st_mode`, the header, the program headers and the
sections. -/
inductive FileState where
  | openFail : FileState
  | notElf : FileState
  | noEhdr : FileState
  | elfOk : Bool → Ehdr → List Phdr → List Scn → FileState
deriving Repr, DecidableEq

/-- The scan stage of `processFile` (lines 381-389): only objects of type
`ET_DYN` or `ET_EXEC` get markers, the DSO/exec classification and the
program-header and section scans; anything else keeps the zeroed state. -/
def scanInfo (cfg : Config) (execBit : Bool) (ehdr : Ehdr)
    (phdrs : List Phdr) (secs : List Scn) : ElfInfo :=
  if ehdr.eType == ET_DYN || ehdr.eType == ET_EXEC then
    processSections cfg secs
      (processProgHeaders
        { marker := mkmarker ehdr, archmarker := some (mkarchmarker ehdr),
          isDSO := ehdr.eType == ET_DYN, isExec := execBit }
        phdrs)
  else
    initEi

/-- The GNU-hash policy step of `processFile` (lines 395-397). -/
def addRtld (cfg : Config) (ei : ElfInfo) : ElfInfo :=
  if genRequires ei && ei.gotGNUHASH && !ei.gotHASH && !cfg.soname_only then
    { ei with requires := ei.requires ++ ["rtld(GNU_HASH)"] }
  else
    ei

/-- The soname-fallback of lines 405-408: when no soname was found and
faking is enabled, take the basename of the input path. -/
def fakeSoname (cfg : Config) (fn : String) (ei : ElfInfo) : ElfInfo :=
  if ei.soname.isNone && cfg.fake_soname then
    { ei with soname := some (basename fn) }
  else ei

/-- The soname-provide step of `processFile` (lines 404-415): for a DSO
without the DEBUG proxy tag, fake the soname from the basename when absent
and allowed, then emit it through the dual-marker decoration. -/
def addSonameProvide (cfg : Config) (fn : String) (ei : ElfInfo) : ElfInfo :=
  if ei.isDSO && !ei.gotDEBUG then
    let ei := fakeSoname cfg fn ei
    match ei.soname with
    | some sn =>
      { ei with provides :=
          (dualAddDep cfg ei.provides sn none ei.marker ei.archmarker) }
    | none => ei
  else
    ei

/-- The interpreter-requirement step of `processFile` (lines 417-419):
appended verbatim, with no `genRequires` gate and no soname filter. -/
def addInterpRequire (cfg : Config) (ei : ElfInfo) : ElfInfo :=
  match ei.interp with
  | some p =>
    if cfg.require_interp then { ei with requires := ei.requires ++ [p] }
    else ei
  | none => ei

/-- elfdeps.c `processFile` (lines 360-438): returns the C return code
(1 on open or structural failure, 0 otherwise) and the lines printed to
stdout — the requires list when `dtype` is true, else the provides list. -/
def processFile (cfg : Config) (fn : String) (fs : FileState)
    (dtype : Bool) : Nat × List String :=
  match fs with
  | .openFail => (1, [])
  | .notElf => (1, [])
  | .noEhdr => (1, [])
  | .elfOk execBit ehdr phdrs secs =>
    let ei := addInterpRequire cfg
      (addSonameProvide cfg fn
        (addRtld cfg (scanInfo cfg execBit ehdr phdrs secs)))
    (0, if dtype then ei.requires else ei.provides)

/-- The path loop of `main` (lines 469-482): every path is processed, the
printed lines accumulate, and the exit status is `EXIT_FAILURE` when any
`processFile` call returned nonzero. -/
def processPaths (cfg : Config) (dtype : Bool) :
    List (String × FileState) → Nat × List String
  | [] => (0, [])
  | pfs :: rest =>
    let res := processFile cfg pfs.1 pfs.2 dtype
    let resRest := processPaths cfg dtype rest
    (if res.1 != 0 || resRest.1 != 0 then 1 else 0, res.2 ++ resRest.2)

/-- Whether a path's file state makes `processFile` return 1: a failed
open/stat, a failed ELF recognition, or a failed header read. -/
def structuralFail : FileState → Bool
  | .openFail => true
  | .notElf => true
  | .noEhdr => true
  | .elfOk _ _ _ _ => false

/-- Whether a dynamic entry is the GNU-hash tag. -/
def isGnuHashTag : DynEntry → Bool
  | .gnuhashTag => true
  | _ => false

/-- Whether a dynamic entry is the classic hash tag. -/
def isHashTag : DynEntry → Bool
  | .hashTag => true
  | _ => false

/-- Whether a section is a dynamic section holding a GNU-hash tag. -/
def hasGnuHashScn : Scn → Bool
  | .dynamic d => d.any isGnuHashTag
  | _ => false

/-- Whether a section is a dynamic section holding a classic hash tag. -/
def hasHashScn : Scn → Bool
  | .dynamic d => d.any isHashTag
  | _ => false

/-- A parenthesis-delimited token: starts with '(' and ends with ')'. -/
def bracketed (s : String) : Bool :=
  leadEq s.data ['('] && leadEq s.data.reverse [')']

/-! Helper lemmas: which fields each scan step can change. -/

theorem processVerDef_requires (cfg : Config) (sec : VerdefSec)
    (ei : ElfInfo) : (processVerDef cfg sec ei).requires = ei.requires := rfl

theorem processVerDef_interp (cfg : Config) (sec : VerdefSec)
    (ei : ElfInfo) : (processVerDef cfg sec ei).interp = ei.interp := rfl

theorem processVerDef_isExec (cfg : Config) (sec : VerdefSec)
    (ei : ElfInfo) : (processVerDef cfg sec ei).isExec = ei.isExec := rfl

theorem processVerDef_gotGNUHASH (cfg : Config) (sec : VerdefSec)
    (ei : ElfInfo) : (processVerDef cfg sec ei).gotGNUHASH = ei.gotGNUHASH :=
  rfl

theorem processVerDef_gotHASH (cfg : Config) (sec : VerdefSec)
    (ei : ElfInfo) : (processVerDef cfg sec ei).gotHASH = ei.gotHASH := rfl

theorem processVerNeed_interp (cfg : Config) (sec : VerneedSec)
    (ei : ElfInfo) : (processVerNeed cfg sec ei).interp = ei.interp := rfl

theorem processVerNeed_isExec (cfg : Config) (sec : VerneedSec)
    (ei : ElfInfo) : (processVerNeed cfg sec ei).isExec = ei.isExec := rfl

theorem processVerNeed_gotGNUHASH (cfg : Config) (sec : VerneedSec)
    (ei : ElfInfo) :
    (processVerNeed cfg sec ei).gotGNUHASH = ei.gotGNUHASH := rfl

theorem processVerNeed_gotHASH (cfg : Config) (sec : VerneedSec)
    (ei : ElfInfo) : (processVerNeed cfg sec ei).gotHASH = ei.gotHASH := rfl

theorem processDynEntry_interp (cfg : Config) (ei : ElfInfo) (e : DynEntry) :
    (processDynEntry cfg ei e).interp = ei.interp := by
  cases e with
  | hashTag => rfl
  | gnuhashTag => rfl
  | debugTag => rfl
  | otherTag => rfl
  | sonameTag s => cases s <;> rfl
  | neededTag s =>
    simp only [processDynEntry]
    split
    · cases s <;> rfl
    · rfl

theorem processDynEntry_isExec (cfg : Config) (ei : ElfInfo) (e : DynEntry) :
    (processDynEntry cfg ei e).isExec = ei.isExec := by
  cases e with
  | hashTag => rfl
  | gnuhashTag => rfl
  | debugTag => rfl
  | otherTag => rfl
  | sonameTag s => cases s <;> rfl
  | neededTag s =>
    simp only [processDynEntry]
    split
    · cases s <;> rfl
    · rfl

theorem processDynEntry_gotGNUHASH (cfg : Config) (ei : ElfInfo)
    (e : DynEntry) :
    (processDynEntry cfg ei e).gotGNUHASH =
      (ei.gotGNUHASH || isGnuHashTag e) := by
  cases e with
  | hashTag => simp [processDynEntry, isGnuHashTag]
  | gnuhashTag => simp [processDynEntry, isGnuHashTag]
  | debugTag => simp [processDynEntry, isGnuHashTag]
  | otherTag => simp [processDynEntry, isGnuHashTag]
  | sonameTag s => cases s <;> simp [processDynEntry, isGnuHashTag]
  | neededTag s =>
    simp only [processDynEntry, isGnuHashTag, Bool.or_false]
    split
    · cases s <;> rfl
    · rfl

theorem processDynEntry_gotHASH (cfg : Config) (ei : ElfInfo)
    (e : DynEntry) :
    (processDynEntry cfg ei e).gotHASH = (ei.gotHASH || isHashTag e) := by
  cases e with
  | hashTag => simp [processDynEntry, isHashTag]
  | gnuhashTag => simp [processDynEntry, isHashTag]
  | debugTag => simp [processDynEntry, isHashTag]
  | otherTag => simp [processDynEntry, isHashTag]
  | sonameTag s => cases s <;> simp [processDynEntry, isHashTag]
  | neededTag s =>
    simp only [processDynEntry, isHashTag, Bool.or_false]
    split
    · cases s <;> rfl
    · rfl

theorem genRequires_processDynEntry (cfg : Config) (ei : ElfInfo)
    (e : DynEntry) :
    genRequires (processDynEntry cfg ei e) = genRequires ei := by
  unfold genRequires
  rw [processDynEntry_interp, processDynEntry_isExec]

theorem processDynEntry_requires_gate (cfg : Config) (ei : ElfInfo)
    (e : DynEntry) (h : genRequires ei = false) :
    (processDynEntry cfg ei e).requires = ei.requires := by
  cases e with
  | hashTag => rfl
  | gnuhashTag => rfl
  | debugTag => rfl
  | otherTag => rfl
  | sonameTag s => cases s <;> rfl
  | neededTag s => simp [processDynEntry, h]

theorem processDynamic_interp (cfg : Config) (d : List DynEntry)
    (ei : ElfInfo) : (processDynamic cfg d ei).interp = ei.interp := by
  induction d generalizing ei with
  | nil => rfl
  | cons e rest ih =>
    rw [processDynamic, ih, processDynEntry_interp]

theorem processDynamic_isExec (cfg : Config) (d : List DynEntry)
    (ei : ElfInfo) : (processDynamic cfg d ei).isExec = ei.isExec := by
  induction d generalizing ei with
  | nil => rfl
  | cons e rest ih =>
    rw [processDynamic, ih, processDynEntry_isExec]

theorem processDynamic_gotGNUHASH (cfg : Config) (d : List DynEntry)
    (ei : ElfInfo) :
    (processDynamic cfg d ei).gotGNUHASH =
      (ei.gotGNUHASH || d.any isGnuHashTag) := by
  induction d generalizing ei with
  | nil => simp [processDynamic]
  | cons e rest ih =>
    rw [processDynamic, ih, processDynEntry_gotGNUHASH]
    simp [Bool.or_assoc]

theorem processDynamic_gotHASH (cfg : Config) (d : List DynEntry)
    (ei : ElfInfo) :
    (processDynamic cfg d ei).gotHASH = (ei.gotHASH || d.any isHashTag) := by
  induction d generalizing ei with
  | nil => simp [processDynamic]
  | cons e rest ih =>
    rw [processDynamic, ih, processDynEntry_gotHASH]
    simp [Bool.or_assoc]

theorem processDynamic_requires_gate (cfg : Config) (d : List DynEntry)
    (ei : ElfInfo) (h : genRequires ei = false) :
    (processDynamic cfg d ei).requires = ei.requires := by
  induction d generalizing ei with
  | nil => rfl
  | cons e rest ih =>
    rw [processDynamic, ih _ (by rw [genRequires_processDynEntry]; exact h),
      processDynEntry_requires_gate _ _ _ h]

theorem verneedAuxLoop_gate (cfg : Config) (ei : ElfInfo) (soname : String)
    (auxNames : List String) (h : genRequires ei = false) :
    ∀ (j auxIdx : Nat) (req : List String),
      verneedAuxLoop cfg ei soname auxNames j auxIdx req = req := by
  intro j
  induction j with
  | zero => intro auxIdx req; rfl
  | succ k ih =>
    intro auxIdx req
    rw [verneedAuxLoop]
    cases auxNames.get? auxIdx with
    | none => rfl
    | some s => simp [h, ih]

theorem verneedRecLoop_gate (cfg : Config) (ei : ElfInfo)
    (recs : List Verneed) (h : genRequires ei = false) :
    ∀ (i idx : Nat) (req : List String),
      verneedRecLoop cfg ei recs i idx req = req := by
  intro i
  induction i with
  | zero => intro idx req; rfl
  | succ k ih =>
    intro idx req
    rw [verneedRecLoop]
    cases recs.get? idx with
    | none => rfl
    | some r => simp [verneedAuxLoop_gate cfg ei _ _ h, ih]

theorem processVerNeed_requires_gate (cfg : Config) (sec : VerneedSec)
    (ei : ElfInfo) (h : genRequires ei = false) :
    (processVerNeed cfg sec ei).requires = ei.requires := by
  unfold processVerNeed
  simp [verneedRecLoop_gate cfg ei sec.recs h]

theorem processScn_interp (cfg : Config) (s : Scn) (ei : ElfInfo) :
    (processScn cfg s ei).interp = ei.interp := by
  cases s with
  | verdef v => rfl
  | verneed v => rfl
  | dynamic d => exact processDynamic_interp cfg d ei
  | other => rfl

theorem processScn_isExec (cfg : Config) (s : Scn) (ei : ElfInfo) :
    (processScn cfg s ei).isExec = ei.isExec := by
  cases s with
  | verdef v => rfl
  | verneed v => rfl
  | dynamic d => exact processDynamic_isExec cfg d ei
  | other => rfl

theorem genRequires_processScn (cfg : Config) (s : Scn) (ei : ElfInfo) :
    genRequires (processScn cfg s ei) = genRequires ei := by
  unfold genRequires
  rw [processScn_interp, processScn_isExec]

theorem processScn_gotGNUHASH (cfg : Config) (s : Scn) (ei : ElfInfo) :
    (processScn cfg s ei).gotGNUHASH =
      (ei.gotGNUHASH || hasGnuHashScn s) := by
  cases s with
  | verdef v => simp [processScn, hasGnuHashScn, processVerDef_gotGNUHASH]
  | verneed v => simp [processScn, hasGnuHashScn, processVerNeed_gotGNUHASH]
  | dynamic d =>
    simp [processScn, hasGnuHashScn, processDynamic_gotGNUHASH]
  | other => simp [processScn, hasGnuHashScn]

theorem processScn_gotHASH (cfg : Config) (s : Scn) (ei : ElfInfo) :
    (processScn cfg s ei).gotHASH = (ei.gotHASH || hasHashScn s) := by
  cases s with
  | verdef v => simp [processScn, hasHashScn, processVerDef_gotHASH]
  | verneed v => simp [processScn, hasHashScn, processVerNeed_gotHASH]
  | dynamic d => simp [processScn, hasHashScn, processDynamic_gotHASH]
  | other => simp [processScn, hasHashScn]

theorem processScn_requires_gate (cfg : Config) (s : Scn) (ei : ElfInfo)
    (h : genRequires ei = false) :
    (processScn cfg s ei).requires = ei.requires := by
  cases s with
  | verdef v => rfl
  | verneed v => exact processVerNeed_requires_gate cfg v ei h
  | dynamic d => exact processDynamic_requires_gate cfg d ei h
  | other => rfl

theorem processSections_interp (cfg : Config) (secs : List Scn)
    (ei : ElfInfo) : (processSections cfg secs ei).interp = ei.interp := by
  induction secs generalizing ei with
  | nil => rfl
  | cons s rest ih => rw [processSections, ih, processScn_interp]

theorem processSections_isExec (cfg : Config) (secs : List Scn)
    (ei : ElfInfo) : (processSections cfg secs ei).isExec = ei.isExec := by
  induction secs generalizing ei with
  | nil => rfl
  | cons s rest ih => rw [processSections, ih, processScn_isExec]

theorem processSections_gotGNUHASH (cfg : Config) (secs : List Scn)
    (ei : ElfInfo) :
    (processSections cfg secs ei).gotGNUHASH =
      (ei.gotGNUHASH || secs.any hasGnuHashScn) := by
  induction secs generalizing ei with
  | nil => simp [processSections]
  | cons s rest ih =>
    rw [processSections, ih, processScn_gotGNUHASH]
    simp [Bool.or_assoc]

theorem processSections_gotHASH (cfg : Config) (secs : List Scn)
    (ei : ElfInfo) :
    (processSections cfg secs ei).gotHASH =
      (ei.gotHASH || secs.any hasHashScn) := by
  induction secs generalizing ei with
  | nil => simp [processSections]
  | cons s rest ih =>
    rw [processSections, ih, processScn_gotHASH]
    simp [Bool.or_assoc]

theorem processSections_requires_gate (cfg : Config) (secs : List Scn)
    (ei : ElfInfo) (h : genRequires ei = false) :
    (processSections cfg secs ei).requires = ei.requires := by
  induction secs generalizing ei with
  | nil => rfl
  | cons s rest ih =>
    rw [processSections, ih _ (by rw [genRequires_processScn]; exact h),
      processScn_requires_gate _ _ _ h]

theorem processProgHeaders_eq (ei : ElfInfo) (phdrs : List Phdr) :
    processProgHeaders ei phdrs =
      match findInterp phdrs with
      | some s => { ei with interp := some s }
      | none => ei := by
  induction phdrs with
  | nil => rfl
  | cons p rest ih =>
    by_cases hpi : p.p_interp = true
    · cases hpd : p.p_data with
      | some s => simp [processProgHeaders, findInterp, hpi, hpd]
      | none => simp [processProgHeaders, findInterp, hpi, hpd, ih]
    · simp only [Bool.not_eq_true] at hpi
      simp [processProgHeaders, findInterp, hpi, ih]

theorem addRtld_interp (cfg : Config) (ei : ElfInfo) :
    (addRtld cfg ei).interp = ei.interp := by
  unfold addRtld
  split <;> rfl

theorem addRtld_off (cfg : Config) (ei : ElfInfo)
    (h : genRequires ei = false) : addRtld cfg ei = ei := by
  simp [addRtld, h]

theorem addRtld_on (cfg : Config) (ei : ElfInfo)
    (hg : genRequires ei = true) (hgnu : ei.gotGNUHASH = true)
    (hh : ei.gotHASH = false) (hso : cfg.soname_only = false) :
    addRtld cfg ei = { ei with requires := ei.requires ++ ["rtld(GNU_HASH)"] }
    := by
  simp [addRtld, hg, hgnu, hh, hso]

theorem fakeSoname_requires (cfg : Config) (fn : String) (ei : ElfInfo) :
    (fakeSoname cfg fn ei).requires = ei.requires := by
  unfold fakeSoname
  split <;> rfl

theorem fakeSoname_interp (cfg : Config) (fn : String) (ei : ElfInfo) :
    (fakeSoname cfg fn ei).interp = ei.interp := by
  unfold fakeSoname
  split <;> rfl

theorem addSonameProvide_requires (cfg : Config) (fn : String)
    (ei : ElfInfo) : (addSonameProvide cfg fn ei).requires = ei.requires := by
  unfold addSonameProvide
  split
  · cases h : (fakeSoname cfg fn ei).soname with
    | some sn => simp only [h]; exact fakeSoname_requires cfg fn ei
    | none => simp only [h]; exact fakeSoname_requires cfg fn ei
  · rfl

theorem addSonameProvide_interp (cfg : Config) (fn : String)
    (ei : ElfInfo) : (addSonameProvide cfg fn ei).interp = ei.interp := by
  unfold addSonameProvide
  split
  · cases h : (fakeSoname cfg fn ei).soname with
    | some sn => simp only [h]; exact fakeSoname_interp cfg fn ei
    | none => simp only [h]; exact fakeSoname_interp cfg fn ei
  · rfl

theorem addInterpRequire_requires_off (cfg : Config) (ei : ElfInfo)
    (h : cfg.require_interp = false) :
    (addInterpRequire cfg ei).requires = ei.requires := by
  unfold addInterpRequire
  cases hi : ei.interp with
  | none => rfl
  | some p => simp [h]

theorem addInterpRequire_mem (cfg : Config) (ei : ElfInfo) (x : String)
    (h : x ∈ ei.requires) : x ∈ (addInterpRequire cfg ei).requires := by
  cases hi : ei.interp with
  | none => simp only [addInterpRequire, hi]; exact h
  | some p =>
    simp only [addInterpRequire, hi]
    by_cases hr : cfg.require_interp = true
    · rw [if_pos hr]
      exact List.mem_append_left _ h
    · rw [if_neg hr]
      exact h

theorem addInterpRequire_on (cfg : Config) (ei : ElfInfo) (p : String)
    (hi : ei.interp = some p) (h : cfg.require_interp = true) :
    (addInterpRequire cfg ei).requires = ei.requires ++ [p] := by
  unfold addInterpRequire
  rw [hi]
  simp [h]

theorem processFile_rc (cfg : Config) (fn : String) (fs : FileState)
    (dtype : Bool) :
    (processFile cfg fn fs dtype).1 = if structuralFail fs then 1 else 0 := by
  cases fs <;> rfl

theorem processPaths_exit (cfg : Config) (dtype : Bool)
    (paths : List (String × FileState)) :
    (processPaths cfg dtype paths).1 =
      if paths.any (fun p => structuralFail p.2) then 1 else 0 := by
  induction paths with
  | nil => rfl
  | cons q rest ih =>
    simp only [processPaths, processFile_rc, ih, List.any_cons]
    rcases Bool.eq_false_or_eq_true (structuralFail q.2) with hq | hq <;>
      rcases Bool.eq_false_or_eq_true (rest.any fun p => structuralFail p.2)
        with hr | hr <;>
      simp [hq, hr]

/-! Concrete fixtures used by the worked example and the witnesses. -/

/-- A 64-bit little-endian x86_64 shared-object header. -/
def ehdrX8664 : Ehdr := ⟨ELFCLASS64, ELFDATA2LSB, EM_X86_64, ET_DYN⟩

/-- The version-definition section of the worked example: one base record
named libfoo.so.1, one non-base record with the auxiliary LIBFOO_1.0. -/
def verdefFoo : VerdefSec :=
  ⟨2, [⟨true, 1, ["libfoo.so.1"]⟩, ⟨false, 1, ["LIBFOO_1.0"]⟩]⟩

/-- The worked example's object: DT_SONAME libfoo.so.1, the version
definitions of `verdefFoo`, 64-bit x86_64, not executable. -/
def fsFoo : FileState :=
  .elfOk false ehdrX8664 []
    [.dynamic [.sonameTag (some "libfoo.so.1")], .verdef verdefFoo]

/-- A program header table whose INTERP segment holds the usual loader. -/
def phdrsInterp : List Phdr := [⟨true, some "/lib64/ld-linux-x86-64.so.2"⟩]

/-- C1 counterexample: on the worked example's object (DT_SONAME
libfoo.so.1, base verdef libfoo.so.1 with auxiliary LIBFOO_1.0,
architecture marker off, word-size marker on, 64-bit x86_64), provides-mode
output is not the claimed pair of lines `libfoo.so.1(64bit)` then
`libfoo.so.1(LIBFOO_1.0)(64bit)`. -/
theorem c1_counterexample :
    processFile defaultConfig "libfoo.so.1" fsFoo false ≠
      (0, ["libfoo.so.1(64bit)", "libfoo.so.1(LIBFOO_1.0)(64bit)"]) := by
  decide

/-- C1 (amended): on that object, provides-mode prints exactly the
version-definition line `libfoo.so.1(LIBFOO_1.0)(64bit)` first and the
soname line `libfoo.so.1()(64bit)` second — the soname provide is appended
after the section scan, and its absent version still contributes an empty
`()` slot. -/
theorem c1_amended :
    processFile defaultConfig "libfoo.so.1" fsFoo false =
      (0, ["libfoo.so.1(LIBFOO_1.0)(64bit)", "libfoo.so.1()(64bit)"]) := by
  decide

/-- C2 counterexample: a path that opens and stats successfully but is not
recognized as an ELF object makes `processFile` return nonzero, marking
the whole run failed — not the claimed silent success. -/
theorem c2_counterexample :
    (processFile defaultConfig "input.txt" FileState.notElf true).1 ≠ 0 := by
  decide

/-- C2 (amended): a path that opens but fails ELF recognition (bad
magic/kind) emits no dependency lines and returns failure, exactly like an
open failure or a header failure; the process exit status is zero iff no
path failed to open, failed ELF recognition, or failed header parsing
(recognized ELF objects of unsupported type are the ones skipped
silently). -/
theorem c2_amended (cfg : Config) (fn : String) (dtype : Bool)
    (paths : List (String × FileState)) :
    processFile cfg fn FileState.notElf dtype = (1, []) ∧
      ((processPaths cfg dtype paths).1 = 0 ↔
        ∀ p ∈ paths, structuralFail p.2 = false) := by
  refine ⟨rfl, ?_⟩
  rw [processPaths_exit]
  cases hall : paths.any (fun p => structuralFail p.2) with
  | false =>
    rw [if_neg (by simp [hall])]
    simp only [List.any_eq_false, Bool.not_eq_true] at hall
    simpa using hall
  | true =>
    rw [if_pos (by simp [hall])]
    simp only [List.any_eq_true] at hall
    obtain ⟨p, hp, hfail⟩ := hall
    constructor
    · intro h; exact absurd h (by norm_num)
    · intro hallf; exact absurd (hallf p hp) (by simp [hfail])

/-- C6: the code accepts the soname "ld6.so" under strict filtering even
though it starts with none of lib, ld., ld-, ld64., ld64- — the source
compares only the first three characters of the "ld64." and "ld64-"
literals, so any soname starting "ld6" and containing ".so" passes. -/
theorem c6_code_bug :
    skipSoname defaultConfig "ld6.so" = false ∧
    leadEq "ld6.so".data "lib".data = false ∧
    leadEq "ld6.so".data "ld.".data = false ∧
    leadEq "ld6.so".data "ld-".data = false ∧
    leadEq "ld6.so".data "ld64.".data = false ∧
    leadEq "ld6.so".data "ld64-".data = false := by
  decide

/-- C7: for a dependency passing the soname filter, `addDep` appends the
bare name when both version and marker are absent, and otherwise exactly
`name(version)marker` with an absent version or marker contributing the
empty string in its slot, version slot first. -/
theorem c7_addDep_format (cfg : Config) (deps : List String) (nm : String)
    (ver marker : Option String) (h : skipSoname cfg nm = false) :
    addDep cfg deps nm ver marker =
      deps ++ [if ver = none ∧ marker = none then nm
        else nm ++ "(" ++ ver.getD "" ++ ")" ++ marker.getD ""] := by
  cases ver <;> cases marker <;> simp [addDep, h]

/-- C7 witness: the format theorem applied to the accepted soname
libz.so.1 with a version and no marker. -/
theorem c7_witness :
    addDep defaultConfig [] "libz.so.1" (some "ZLIB_1.2") none =
      [] ++ [if (some "ZLIB_1.2" : Option String) = none ∧
          (none : Option String) = none then "libz.so.1"
        else "libz.so.1" ++ "(" ++ (some "ZLIB_1.2" : Option String).getD ""
          ++ ")" ++ (none : Option String).getD ""] :=
  c7_addDep_format defaultConfig [] "libz.so.1" (some "ZLIB_1.2") none rfl

/-- C10: the scan is deterministic — two runs over the same observed file
state with the same configuration produce identical ordered output. -/
theorem c10_deterministic (cfg : Config) (fn : String) (fs1 fs2 : FileState)
    (dtype : Bool) (h : fs1 = fs2) :
    processFile cfg fn fs1 dtype = processFile cfg fn fs2 dtype := by
  rw [h]

/-- C10 witness: two runs on the worked example's object agree. -/
theorem c10_witness :
    processFile defaultConfig "libfoo.so.1" fsFoo false =
      processFile defaultConfig "libfoo.so.1" fsFoo false :=
  c10_deterministic defaultConfig "libfoo.so.1" fsFoo fsFoo false rfl

/-- C3: in requires-mode, a non-executable shared object that carries an
interpreter path yields an empty requires list — the `genRequires` policy
gate suppresses needed-library entries, version-requirement entries and the
synthetic GNU-hash requirement (under the default require-interpreter-off
configuration, which is the only one in which the gate governs every
requires entry). -/
theorem c3_gate_suppresses_requires (cfg : Config) (fn : String)
    (ehdr : Ehdr) (phdrs : List Phdr) (secs : List Scn) (p : String)
    (hdyn : ehdr.eType = ET_DYN)
    (hfound : findInterp phdrs = some p)
    (hri : cfg.require_interp = false) :
    processFile cfg fn (FileState.elfOk false ehdr phdrs secs) true =
      (0, []) := by
  have hcond : (ehdr.eType == ET_DYN || ehdr.eType == ET_EXEC) = true := by
    rw [hdyn]
    rfl
  have hPF : processFile cfg fn (FileState.elfOk false ehdr phdrs secs) true
      = (0, (addInterpRequire cfg (addSonameProvide cfg fn
          (addRtld cfg (scanInfo cfg false ehdr phdrs secs)))).requires) :=
    rfl
  have hscan : scanInfo cfg false ehdr phdrs secs =
      processSections cfg secs
        ({ marker := mkmarker ehdr, archmarker := some (mkarchmarker ehdr),
           isDSO := ehdr.eType == ET_DYN, isExec := false,
           interp := some p } : ElfInfo) := by
    unfold scanInfo
    rw [if_pos hcond, processProgHeaders_eq, hfound]
  have hgenB : genRequires
      ({ marker := mkmarker ehdr, archmarker := some (mkarchmarker ehdr),
         isDSO := ehdr.eType == ET_DYN, isExec := false,
         interp := some p } : ElfInfo) = false := rfl
  have hgenA : genRequires (processSections cfg secs
      ({ marker := mkmarker ehdr, archmarker := some (mkarchmarker ehdr),
         isDSO := ehdr.eType == ET_DYN, isExec := false,
         interp := some p } : ElfInfo)) = false := by
    unfold genRequires
    rw [processSections_interp, processSections_isExec]
    rfl
  rw [hPF, hscan, addRtld_off _ _ hgenA,
    addInterpRequire_requires_off _ _ hri, addSonameProvide_requires,
    processSections_requires_gate _ _ _ hgenB]

/-- C3 witness: the gate theorem applied to a concrete non-executable
x86_64 shared object with an interpreter, a needed library and a GNU-hash
tag: its requires output is empty. -/
theorem c3_witness :
    processFile defaultConfig "libq.so.1"
      (FileState.elfOk false ehdrX8664 phdrsInterp
        [.dynamic [.neededTag (some "libc.so.6"), .gnuhashTag]]) true
      = (0, []) :=
  c3_gate_suppresses_requires defaultConfig "libq.so.1" ehdrX8664 phdrsInterp
    [.dynamic [.neededTag (some "libc.so.6"), .gnuhashTag]]
    "/lib64/ld-linux-x86-64.so.2" rfl rfl rfl

/-- C4 counterexample: a non-executable shared object with a GNU-hash tag,
no classic hash tag and an interpreter path produces a requires output
without the synthetic loader-support token, because the `genRequires` gate
fails — refuting the claim's unconditional form. -/
theorem c4_counterexample :
    ¬ "rtld(GNU_HASH)" ∈
      (processFile defaultConfig "libq.so.1"
        (FileState.elfOk false ehdrX8664 phdrsInterp
          [.dynamic [.gnuhashTag]]) true).2 := by
  decide

/-- C4 (amended): a shared object whose dynamic table has a GNU-hash tag
and no classic hash tag, in requires-mode with soname-only off, gets the
synthetic token rtld(GNU_HASH) in its requires output provided the
requires policy gate passes, i.e. the object has no interpreter path or is
executable. -/
theorem c4_amended (cfg : Config) (fn : String) (ex : Bool) (ehdr : Ehdr)
    (phdrs : List Phdr) (secs : List Scn)
    (hdyn : ehdr.eType = ET_DYN)
    (hso : cfg.soname_only = false)
    (hgnu : secs.any hasGnuHashScn = true)
    (hhash : secs.any hasHashScn = false)
    (hgate : findInterp phdrs = none ∨ ex = true) :
    "rtld(GNU_HASH)" ∈
      (processFile cfg fn (FileState.elfOk ex ehdr phdrs secs) true).2 := by
  have hcond : (ehdr.eType == ET_DYN || ehdr.eType == ET_EXEC) = true := by
    rw [hdyn]
    rfl
  have hPF : (processFile cfg fn (FileState.elfOk ex ehdr phdrs secs)
        true).2
      = (addInterpRequire cfg (addSonameProvide cfg fn
          (addRtld cfg (scanInfo cfg ex ehdr phdrs secs)))).requires := rfl
  have hSint : (scanInfo cfg ex ehdr phdrs secs).interp = findInterp phdrs
      := by
    unfold scanInfo
    rw [if_pos hcond, processSections_interp, processProgHeaders_eq]
    cases findInterp phdrs <;> rfl
  have hSex : (scanInfo cfg ex ehdr phdrs secs).isExec = ex := by
    unfold scanInfo
    rw [if_pos hcond, processSections_isExec, processProgHeaders_eq]
    cases findInterp phdrs <;> rfl
  have hgen : genRequires (scanInfo cfg ex ehdr phdrs secs) = true := by
    unfold genRequires
    rw [hSint, hSex]
    rcases hgate with h | h
    · rw [h]
      rfl
    · rw [h]
      simp
  have hSgnu : (scanInfo cfg ex ehdr phdrs secs).gotGNUHASH = true := by
    unfold scanInfo
    rw [if_pos hcond, processSections_gotGNUHASH, processProgHeaders_eq]
    cases findInterp phdrs <;> simp [hgnu]
  have hShash : (scanInfo cfg ex ehdr phdrs secs).gotHASH = false := by
    unfold scanInfo
    rw [if_pos hcond, processSections_gotHASH, processProgHeaders_eq]
    cases findInterp phdrs <;> simp [hhash]
  rw [hPF, addRtld_on cfg _ hgen hSgnu hShash hso]
  apply addInterpRequire_mem
  rw [addSonameProvide_requires]
  exact List.mem_append_right _ (List.mem_singleton_self _)

/-- C4 witness: the amended theorem applied to a concrete shared object
with only a GNU-hash tag and no interpreter. -/
theorem c4_witness :
    "rtld(GNU_HASH)" ∈
      (processFile defaultConfig "libq.so.1"
        (FileState.elfOk false ehdrX8664 [] [.dynamic [.gnuhashTag]])
        true).2 :=
  c4_amended defaultConfig "libq.so.1" false ehdrX8664 []
    [.dynamic [.gnuhashTag]] rfl rfl rfl rfl (Or.inl rfl)

/-- C9: with require-interpreter mode on, a found interpreter path is
appended verbatim to the requires output, with no `genRequires` gate and
no soname filter — for any exec bit, so in particular for a non-executable
shared object whose other requires entries the gate suppresses. -/
theorem c9_interp_requirement (cfg : Config) (fn : String) (ex : Bool)
    (ehdr : Ehdr) (phdrs : List Phdr) (secs : List Scn) (p : String)
    (hri : cfg.require_interp = true)
    (htype : (ehdr.eType == ET_DYN || ehdr.eType == ET_EXEC) = true)
    (hfound : findInterp phdrs = some p) :
    p ∈ (processFile cfg fn (FileState.elfOk ex ehdr phdrs secs) true).2
    := by
  have hPF : (processFile cfg fn (FileState.elfOk ex ehdr phdrs secs)
        true).2
      = (addInterpRequire cfg (addSonameProvide cfg fn
          (addRtld cfg (scanInfo cfg ex ehdr phdrs secs)))).requires := rfl
  have hscan : scanInfo cfg ex ehdr phdrs secs =
      processSections cfg secs
        ({ marker := mkmarker ehdr, archmarker := some (mkarchmarker ehdr),
           isDSO := ehdr.eType == ET_DYN, isExec := ex,
           interp := some p } : ElfInfo) := by
    unfold scanInfo
    rw [if_pos htype, processProgHeaders_eq, hfound]
  have hint : (addSonameProvide cfg fn (addRtld cfg (processSections cfg
      secs
      ({ marker := mkmarker ehdr, archmarker := some (mkarchmarker ehdr),
         isDSO := ehdr.eType == ET_DYN, isExec := ex,
         interp := some p } : ElfInfo)))).interp = some p := by
    rw [addSonameProvide_interp, addRtld_interp, processSections_interp]
  rw [hPF, hscan, addInterpRequire_on cfg _ p hint hri]
  exact List.mem_append_right _ (List.mem_singleton_self _)

/-- C9 witness: the interpreter path of a concrete non-executable shared
object appears in its requires output under require-interpreter mode. -/
theorem c9_witness :
    "/lib64/ld-linux-x86-64.so.2" ∈
      (processFile
        { defaultConfig with require_interp := true } "libq.so.1"
        (FileState.elfOk false ehdrX8664 phdrsInterp
          [.dynamic [.neededTag (some "libc.so.6")]]) true).2 :=
  c9_interp_requirement { defaultConfig with require_interp := true }
    "libq.so.1" false ehdrX8664 phdrsInterp
    [.dynamic [.neededTag (some "libc.so.6")]]
    "/lib64/ld-linux-x86-64.so.2" rfl rfl rfl

theorem addDep_some_ver (cfg : Config) (deps : List String) (sn v : String)
    (marker : Option String) (h : skipSoname cfg sn = false) :
    addDep cfg deps sn (some v) marker =
      deps ++ [sn ++ "(" ++ v ++ ")" ++ marker.getD ""] := by
  simp [addDep, h]

theorem dualAddDep_nonarch (cfg : Config) (deps : List String) (nm : String)
    (ver : Option String) (marker archmarker : Option String)
    (hna : cfg.add_nonarch = true) (haa : cfg.add_arch = false) :
    dualAddDep cfg deps nm ver marker archmarker =
      addDep cfg deps nm ver marker := by
  simp [dualAddDep, hna, haa]

theorem verdefAuxLoop_nonbase (cfg : Config)
    (marker archmarker : Option String) (s : String) (rest : List String)
    (sn : String) (hso : cfg.soname_only = false)
    (hna : cfg.add_nonarch = true) (haa : cfg.add_arch = false)
    (hskip : skipSoname cfg sn = false) :
    ∀ (n : Nat) (provides : List String),
      verdefAuxLoop cfg marker archmarker (s :: rest) false n 0 (some sn)
          provides
        = (some sn, provides ++
            List.replicate n (sn ++ "(" ++ s ++ ")" ++ marker.getD "")) := by
  intro n
  induction n with
  | zero =>
    intro provides
    simp [verdefAuxLoop]
  | succ k ih =>
    intro provides
    rw [verdefAuxLoop]
    simp only [List.get?_cons_zero, hso, Bool.not_false, if_true,
      dualAddDep_nonarch cfg _ _ _ _ _ hna haa,
      addDep_some_ver cfg _ _ _ _ hskip, ih]
    simp [List.replicate_succ, List.append_assoc]

/-- C5 counterexample: a version-definition section with a base record
libbar.so.1 and one non-base record carrying two distinct auxiliary names
V1 and V2 yields the V1 entry twice and no V2 entry at all — refuting
"one provides entry per auxiliary version name". -/
theorem c5_counterexample :
    (processVerDef defaultConfig
        ⟨2, [⟨true, 1, ["libbar.so.1"]⟩, ⟨false, 2, ["V1", "V2"]⟩]⟩
        initEi).provides
      = ["libbar.so.1(V1)", "libbar.so.1(V1)"] ∧
    ¬ "libbar.so.1(V2)" ∈
      (processVerDef defaultConfig
        ⟨2, [⟨true, 1, ["libbar.so.1"]⟩, ⟨false, 2, ["V1", "V2"]⟩]⟩
        initEi).provides := by
  decide

/-- C5 (amended): for a non-base record following a base record named
`bn`, the scanner reads only the record's first auxiliary name `s` (the
aux cursor is never advanced in the non-base branch) and emits the entry
pairing `bn` with `s` once per declared auxiliary count; auxiliary names
after the first are never read and yield no entries.  Stated under the
default word-size-marker-only decoration and with `bn` passing the
filter. -/
theorem c5_amended (cfg : Config) (bn s : String) (rest : List String)
    (n : Nat) (ei : ElfInfo)
    (hso : cfg.soname_only = false) (hna : cfg.add_nonarch = true)
    (haa : cfg.add_arch = false) (hskip : skipSoname cfg bn = false) :
    (processVerDef cfg ⟨2, [⟨true, 1, [bn]⟩, ⟨false, n, s :: rest⟩]⟩
        ei).provides
      = ei.provides ++
          List.replicate n (bn ++ "(" ++ s ++ ")" ++ ei.marker.getD "") := by
  have h1 : (processVerDef cfg
        ⟨2, [⟨true, 1, [bn]⟩, ⟨false, n, s :: rest⟩]⟩ ei).provides
      = verdefRecLoop cfg ei.marker ei.archmarker
          [⟨true, 1, [bn]⟩, ⟨false, n, s :: rest⟩] 2 0 none ei.provides :=
    rfl
  have h2 : verdefRecLoop cfg ei.marker ei.archmarker
        [⟨true, 1, [bn]⟩, ⟨false, n, s :: rest⟩] 2 0 none ei.provides
      = verdefRecLoop cfg ei.marker ei.archmarker
          [⟨true, 1, [bn]⟩, ⟨false, n, s :: rest⟩] 1 1 (some bn)
          ei.provides := rfl
  have h3 : verdefRecLoop cfg ei.marker ei.archmarker
        [⟨true, 1, [bn]⟩, ⟨false, n, s :: rest⟩] 1 1 (some bn) ei.provides
      = (verdefAuxLoop cfg ei.marker ei.archmarker (s :: rest) false n 0
          (some bn) ei.provides).2 := rfl
  rw [h1, h2, h3,
    verdefAuxLoop_nonbase cfg ei.marker ei.archmarker s rest bn hso hna haa
      hskip n ei.provides]

/-- C5 witness: the amended theorem on a concrete record with auxiliary
names W1 and W2 and count 2: the W1 entry is emitted twice. -/
theorem c5_witness :
    (processVerDef defaultConfig
        ⟨2, [⟨true, 1, ["libbaz.so.2"]⟩, ⟨false, 2, ["W1", "W2"]⟩]⟩
        initEi).provides
      = initEi.provides ++ List.replicate 2
          ("libbaz.so.2" ++ "(" ++ "W1" ++ ")" ++ initEi.marker.getD "") :=
  c5_amended defaultConfig "libbaz.so.2" "W1" ["W2"] 2 initEi rfl rfl rfl rfl

theorem bracketed_ite (c : Prop) [Decidable c] (a b : String)
    (ha : bracketed a = true) (hb : bracketed b = true) :
    bracketed (if c then a else b) = true := by
  split <;> assumption

/-- C8 counterexample: the ARM big-endian architecture marker is the
unbracketed literal "armeb", refuting the claim that the computed marker
is parenthesis-delimited for every object header. -/
theorem c8_counterexample :
    mkarchmarker ⟨1, ELFDATA2MSB, EM_ARM, ET_DYN⟩ = "armeb" ∧
      bracketed "armeb" = false := by
  decide

/-- C8 (amended): the architecture-marker table reproduces the listed
mappings exactly — (x86_64), (aarch64) / (aarch64_be) by endianness,
(ppc64le), (mips64le), (sparc64), with (unknown) / (unknown64) fallbacks —
and yields a parenthesis-delimited token for every header except ARM
big-endian ("armeb") and 32-bit PA-RISC ("hppa"), whose literals lack the
parentheses. -/
theorem c8_amended :
    (∀ ehdr : Ehdr, bracketed (mkarchmarker ehdr) = true ∨
      mkarchmarker ehdr = "armeb" ∨ mkarchmarker ehdr = "hppa") ∧
    mkarchmarker ⟨ELFCLASS64, ELFDATA2LSB, EM_X86_64, ET_DYN⟩ = "(x86_64)" ∧
    mkarchmarker ⟨ELFCLASS64, ELFDATA2LSB, EM_AARCH64, ET_DYN⟩ = "(aarch64)"
    ∧
    mkarchmarker ⟨ELFCLASS64, ELFDATA2MSB, EM_AARCH64, ET_DYN⟩ =
      "(aarch64_be)" ∧
    mkarchmarker ⟨ELFCLASS64, ELFDATA2LSB, EM_PPC64, ET_DYN⟩ = "(ppc64le)" ∧
    mkarchmarker ⟨ELFCLASS64, ELFDATA2LSB, EM_MIPS, ET_DYN⟩ = "(mips64le)" ∧
    mkarchmarker ⟨ELFCLASS64, ELFDATA2LSB, EM_SPARCV9, ET_DYN⟩ = "(sparc64)"
    ∧
    mkarchmarker ⟨1, ELFDATA2LSB, 1000, ET_DYN⟩ = "(unknown)" ∧
    mkarchmarker ⟨ELFCLASS64, ELFDATA2LSB, 1000, ET_DYN⟩ = "(unknown64)" :=
    by
  refine ⟨?_, rfl, rfl, rfl, rfl, rfl, rfl, rfl, rfl⟩
  intro e
  unfold mkarchmarker
  by_cases h1 : (e.eMachine == EM_386) = true
  · rw [if_pos h1]; exact Or.inl rfl
  rw [if_neg h1]
  by_cases h2 : (e.eMachine == EM_68K) = true
  · rw [if_pos h2]; exact Or.inl rfl
  rw [if_neg h2]
  by_cases h3 : (e.eMachine == EM_AARCH64) = true
  · rw [if_pos h3]; exact Or.inl (bracketed_ite _ _ _ rfl rfl)
  rw [if_neg h3]
  by_cases h4 : (e.eMachine == EM_ALPHA || e.eMachine == EM_FAKE_ALPHA) =
      true
  · rw [if_pos h4]; exact Or.inl rfl
  rw [if_neg h4]
  by_cases h5 : (e.eMachine == EM_ARM) = true
  · rw [if_pos h5]
    by_cases hd : (e.eData == ELFDATA2LSB) = true
    · rw [if_pos hd]; exact Or.inl rfl
    · rw [if_neg hd]; exact Or.inr (Or.inl rfl)
  rw [if_neg h5]
  by_cases h6 : (e.eMachine == EM_IA_64) = true
  · rw [if_pos h6]; exact Or.inl rfl
  rw [if_neg h6]
  by_cases h7 : (e.eMachine == EM_MIPS) = true
  · rw [if_pos h7]
    exact Or.inl (bracketed_ite _ _ _ rfl
      (bracketed_ite _ _ _ rfl (bracketed_ite _ _ _ rfl rfl)))
  rw [if_neg h7]
  by_cases h8 : (e.eMachine == EM_PARISC) = true
  · rw [if_pos h8]
    by_cases hc : (e.eClass == ELFCLASS64) = true
    · rw [if_pos hc]; exact Or.inl rfl
    · rw [if_neg hc]; exact Or.inr (Or.inr rfl)
  rw [if_neg h8]
  by_cases h9 : (e.eMachine == EM_PPC) = true
  · rw [if_pos h9]; exact Or.inl (bracketed_ite _ _ _ rfl rfl)
  rw [if_neg h9]
  by_cases h10 : (e.eMachine == EM_PPC64) = true
  · rw [if_pos h10]; exact Or.inl (bracketed_ite _ _ _ rfl rfl)
  rw [if_neg h10]
  by_cases h11 : (e.eMachine == EM_RISCV) = true
  · rw [if_pos h11]; exact Or.inl (bracketed_ite _ _ _ rfl rfl)
  rw [if_neg h11]
  by_cases h12 : (e.eMachine == EM_S390) = true
  · rw [if_pos h12]; exact Or.inl (bracketed_ite _ _ _ rfl rfl)
  rw [if_neg h12]
  by_cases h13 : (e.eMachine == EM_SH) = true
  · rw [if_pos h13]; exact Or.inl (bracketed_ite _ _ _ rfl rfl)
  rw [if_neg h13]
  by_cases h14 : (e.eMachine == EM_SPARC || e.eMachine == EM_SPARC32PLUS ||
      e.eMachine == EM_SPARCV9) = true
  · rw [if_pos h14]; exact Or.inl (bracketed_ite _ _ _ rfl rfl)
  rw [if_neg h14]
  by_cases h15 : (e.eMachine == EM_X86_64) = true
  · rw [if_pos h15]; exact Or.inl rfl
  rw [if_neg h15]
  exact Or.inl (bracketed_ite _ _ _ rfl rfl)

end Elfdeps
